import Mathlib

/-!
# KindleSRS calendar cleanup (apps-script/Code.js)

A shallow embedding of the three Apps Script entry points `previewSrsToDelete`,
`cleanupSrsFromTomorrow` and `cleanupSrsInRange`, of the classifier expression
`looksLikeSRS` they share, and the properties checked against them.

JavaScript strings are modelled by Lean strings, read as lists of characters.
Every character of the title prefix and of the marker pattern lies in the
Basic Multilingual Plane, so matching by characters and matching by UTF-16
code units agree on well-formed strings.
-/

namespace KindleSRS

/-! ## Strings -/

/-- The value of `x || ''` for a string-or-null `x`: a missing value and the
empty string both give the empty string. -/
def orEmpty : Option String → String
  | none => ""
  | some s => s

/-- Search of `String.prototype.indexOf`, started at position `k` of the
receiver, whose remaining characters are `s`: the first position at which `p`
occurs, or `-1`. -/
def indexOfFrom (p : List Char) : List Char → Nat → Int
  | [], k => if p.isEmpty then (k : Int) else -1
  | c :: cs, k => if p.isPrefixOf (c :: cs) then (k : Int) else indexOfFrom p cs (k + 1)

/-- The call `s.indexOf(p)`. -/
def indexOf (s p : String) : Int :=
  indexOfFrom p.data s.data 0

/-- The constant bound to the name `prefix` in each entry point (the dash is U+2014). -/
def srsPrefix : String := "Kindle SRS Review — "

/-! ## The regular expression `/SRS_DATE=\d{4}-\d{2}-\d{2}/` -/

/-- Character class `\d` of a regular expression without the unicode flag: `0` to `9`. -/
def isDigit (c : Char) : Bool :=
  decide ('0' ≤ c) && decide (c ≤ '9')

/-- Match a literal at the head of the input; the result is the rest of the input. -/
def matchLit : List Char → List Char → Option (List Char)
  | [], s => some s
  | _ :: _, [] => none
  | l :: ls, c :: cs => if l = c then matchLit ls cs else none

/-- Match `\d{n}` at the head of the input; the result is the rest of the input. -/
def matchDigits : Nat → List Char → Option (List Char)
  | 0, s => some s
  | _ + 1, [] => none
  | n + 1, c :: cs => if isDigit c then matchDigits n cs else none

/-- Match of the whole pattern `SRS_DATE=\d{4}-\d{2}-\d{2}` at the head of the input. -/
def matchHere (s : List Char) : Bool :=
  ((((((matchLit "SRS_DATE=".data s).bind (matchDigits 4)).bind (matchLit ['-'])).bind
    (matchDigits 2)).bind (matchLit ['-'])).bind (matchDigits 2)).isSome

/-- Unanchored search: the pattern is tried at every position, left to right. -/
def searchFrom : List Char → Bool
  | [] => matchHere []
  | c :: cs => matchHere (c :: cs) || searchFrom cs

/-- The call `/SRS_DATE=\d{4}-\d{2}-\d{2}/.test(desc)`. -/
def regexTest (desc : String) : Bool :=
  searchFrom desc.data

/-- The expression bound to `looksLikeSRS` (lines 21, 49 and 74, the same text):
`title.indexOf(prefix) === 0 || /SRS_DATE=\d{4}-\d{2}-\d{2}/.test(desc)`. -/
def looksLikeSRS (title desc : String) : Bool :=
  decide (indexOf title srsPrefix = 0) || regexTest desc

/-- The marker of the description rule as section 4.3 words it: somewhere in the
description stands `SRS_DATE=`, four decimal digits, `-`, two decimal digits,
`-`, two decimal digits. What follows the two digits of the day is free. -/
def ContainsMarker (desc : String) : Prop :=
  ∃ pre y m d post : String,
    (y.length = 4 ∧ ∀ c ∈ y.data, isDigit c = true) ∧
    (m.length = 2 ∧ ∀ c ∈ m.data, isDigit c = true) ∧
    (d.length = 2 ∧ ∀ c ∈ d.data, isDigit c = true) ∧
    desc = pre ++ "SRS_DATE=" ++ y ++ "-" ++ m ++ "-" ++ d ++ post

/-- The condition of the specification on an argument of the ranged cleanup, in its
words: a date string `YYYY-MM-DD`, four decimal digits, `-`, two decimal digits,
`-`, two decimal digits. No statement of Code.js tests it. -/
def IsYYYYMMDD (iso : String) : Prop :=
  ∃ y m d : String,
    (y.length = 4 ∧ ∀ c ∈ y.data, isDigit c = true) ∧
    (m.length = 2 ∧ ∀ c ∈ m.data, isDigit c = true) ∧
    (d.length = 2 ∧ ∀ c ∈ d.data, isDigit c = true) ∧
    iso = y ++ "-" ++ m ++ "-" ++ d

/-! ## Calendar provider and hosting environment -/

/-- An event of the calendar as the script reads it: what `getTitle()`,
`getDescription()` and `getStartTime()` return. `none` is a missing value
(`null`). The identifier is the provider's. -/
structure CalendarEvent where
  id : Nat
  getTitle : Option String
  getDescription : Option String
  getStartTime : Int
  deriving DecidableEq

/-- The lines `title`, `desc` and `looksLikeSRS` of the loop body, for one event. -/
def classify (ev : CalendarEvent) : Bool :=
  let title := orEmpty ev.getTitle
  let desc := orEmpty ev.getDescription
  looksLikeSRS title desc

/-- Failures of an invocation, named as in section 7 of the specification. -/
inductive RunError where
  | InvalidDateFormat
  | CalendarNotFound
  | DeletionFailed
  deriving DecidableEq

/-- Lines written with `Logger.log`, kept as data: the template and the values
interpolated into it. -/
inductive LogLine where
  | wouldDelete (title : String) (startTime : Int)
  | preview (count : Nat)
  | cleanupDone (scanned deleted : Nat)
  | rangeCleanup (deleted : Nat) (startISO endISO : String)
  deriving DecidableEq

/-- A civil date and time of day: the fields that a date-time string spells out. -/
structure CivilTime where
  year : Nat
  month : Nat
  day : Nat
  hour : Nat
  minute : Nat
  second : Nat
  deriving DecidableEq

/-- Everything the script takes from outside Code.js: the two configuration
constants, the clock, the time zone of the script, the date helpers that Code.js
calls and does not define, and the calendar provider. Instants are time values of
`Date`; the two readings of the clock that an invocation makes are taken as the one
instant `now`.

* `toLocalDate t tz` is what the helper `toLocalDate` returns for a valid `Date` of
  time value `t`.
* `localTimeValue c` is the time value of the civil time `c` read in the time zone
  of the script.
* `otherDateParse s` is what the engine makes of a string outside the part of the
  standard date-time format that `newDate` reads itself: a time value, or `none`
  for an Invalid Date.
* `matchesQuery ev start end search` is the provider's decision that `ev` belongs
  to the result of `getEvents(start, end, {search})`.
* `deleteOutcome k ev` says whether the call `ev.deleteEvent()` that is attempt
  number `k` of the invocation returns normally (`true`) or throws (`false`). -/
structure Host where
  CALENDAR_ID : String
  TIMEZONE : String
  now : Int
  toLocalDate : Int → String → Int
  addDays_ : Int → Int → Int
  plusYears : Int → Int → Int
  localTimeValue : CivilTime → Int
  otherDateParse : String → Option Int
  defaultCalendar : List CalendarEvent
  calendarById : String → Option (List CalendarEvent)
  matchesQuery : CalendarEvent → Int → Int → String → Bool
  deleteOutcome : Nat → CalendarEvent → Bool

/-- The expression `(CALENDAR_ID === 'primary') ? CalendarApp.getDefaultCalendar()
: CalendarApp.getCalendarById(CALENDAR_ID)`; `getCalendarById` returns `null` for an
identifier that resolves to no accessible calendar. -/
def resolveCalendar (h : Host) : Option (List CalendarEvent) :=
  if h.CALENDAR_ID = "primary" then some h.defaultCalendar else h.calendarById h.CALENDAR_ID

/-- The call `cal.getEvents(start, end, { search })`: the events of the calendar, in
the calendar's order, that the provider matches against the query. Read-only. -/
def getEvents (h : Host) (cal : List CalendarEvent) (start end_ : Int) (search : String) :
    List CalendarEvent :=
  cal.filter (fun ev => h.matchesQuery ev start end_ search)

/-- The provider during one invocation: the events of the calendar, and the
`deleteEvent` calls received so far, each with whether it returned normally. -/
structure Provider where
  store : List CalendarEvent
  calls : List (CalendarEvent × Bool)

/-- The call `ev.deleteEvent()`. When it returns normally the event is gone from
the calendar; when it throws the calendar is as before. Either way the call is
recorded. -/
def deleteEvent (h : Host) (p : Provider) (ev : CalendarEvent) :
    Provider × Except RunError Unit :=
  if h.deleteOutcome p.calls.length ev then
    ({ store := p.store.filter (fun e => decide (e ≠ ev)), calls := p.calls ++ [(ev, true)] },
      Except.ok ())
  else
    ({ store := p.store, calls := p.calls ++ [(ev, false)] }, Except.error RunError.DeletionFailed)

/-- The statement `try { ev.deleteEvent(); deleted++; } catch (e) {}` (lines 51 and 76). -/
def tryDelete (h : Host) (deleted : Nat) (p : Provider) (ev : CalendarEvent) : Nat × Provider :=
  match deleteEvent h p ev with
  | (p', Except.ok _) => (deleted + 1, p')
  | (p', Except.error _) => (deleted, p')

/-- What an invocation leaves behind: the failure that ended it, if one did; the
result of `cal.getEvents`, if that call was reached and returned; the `deleteEvent`
calls made, in order, each with whether it returned normally; the events of the
resolved calendar afterwards; the log. -/
structure Run where
  error : Option RunError
  fetched : Option (List CalendarEvent)
  calls : List (CalendarEvent × Bool)
  calendar : Option (List CalendarEvent)
  log : List LogLine

/-- An invocation ended by an uncaught failure before `cal.getEvents` returned. -/
def Run.failed (e : RunError) (cal : Option (List CalendarEvent)) : Run :=
  { error := some e, fetched := none, calls := [], calendar := cal, log := [] }

/-! ## previewSrsToDelete -/

/-- Variables of `previewSrsToDelete` that the loop changes, and the log. -/
structure PreviewVars where
  count : Nat
  log : List LogLine

/-- Body of the `forEach` callback of `previewSrsToDelete` (lines 18 to 26). -/
def previewStep (st : PreviewVars) (ev : CalendarEvent) : PreviewVars :=
  let title := orEmpty ev.getTitle
  let desc := orEmpty ev.getDescription
  let looksLike := looksLikeSRS title desc
  if looksLike then
    { count := st.count + 1, log := st.log ++ [LogLine.wouldDelete title ev.getStartTime] }
  else st

/-- The entry point `previewSrsToDelete()`. Calling `getEvents` on the `null` of an
unresolved calendar is the failure `CalendarNotFound`. -/
def previewSrsToDelete (h : Host) : Run :=
  let cal := resolveCalendar h
  let tz := h.TIMEZONE
  let todayLocal := h.toLocalDate h.now tz
  let start := h.addDays_ todayLocal 1
  let end_ := h.plusYears h.now 5
  match cal with
  | none => Run.failed RunError.CalendarNotFound none
  | some store =>
    let events := getEvents h store start end_ srsPrefix
    let st := events.foldl previewStep { count := 0, log := [] }
    { error := none, fetched := some events, calls := [], calendar := some store,
      log := st.log ++ [LogLine.preview st.count] }

/-! ## cleanupSrsFromTomorrow -/

/-- Variables of `cleanupSrsFromTomorrow` that the loop changes, and the provider. -/
structure CleanupVars where
  scanned : Nat
  deleted : Nat
  provider : Provider

/-- Body of the `forEach` callback of `cleanupSrsFromTomorrow` (lines 45 to 53). -/
def cleanupStep (h : Host) (st : CleanupVars) (ev : CalendarEvent) : CleanupVars :=
  let scanned := st.scanned + 1
  let title := orEmpty ev.getTitle
  let desc := orEmpty ev.getDescription
  let looksLike := looksLikeSRS title desc
  if looksLike then
    let r := tryDelete h st.deleted st.provider ev
    { scanned := scanned, deleted := r.1, provider := r.2 }
  else { scanned := scanned, deleted := st.deleted, provider := st.provider }

/-- The entry point `cleanupSrsFromTomorrow()`. -/
def cleanupSrsFromTomorrow (h : Host) : Run :=
  let cal := resolveCalendar h
  let tz := h.TIMEZONE
  let todayLocal := h.toLocalDate h.now tz
  let start := h.addDays_ todayLocal 1
  let end_ := h.plusYears h.now 5
  match cal with
  | none => Run.failed RunError.CalendarNotFound none
  | some store =>
    let events := getEvents h store start end_ srsPrefix
    let st := events.foldl (cleanupStep h)
      { scanned := 0, deleted := 0, provider := { store := store, calls := [] } }
    { error := none, fetched := some events, calls := st.provider.calls,
      calendar := some st.provider.store,
      log := [LogLine.cleanupDone st.scanned st.deleted] }

/-! ## cleanupSrsInRange -/

/-- Read `n` decimal digits at the head of the input as a number (`acc` holds the
digits read so far); the result is the number and the rest of the input. -/
def readDigits : Nat → Nat → List Char → Option (Nat × List Char)
  | 0, acc, s => some (acc, s)
  | _ + 1, _, [] => none
  | n + 1, acc, c :: cs =>
    if isDigit c then readDigits n (10 * acc + (c.toNat - '0'.toNat)) cs else none

/-- Days of a month of the Gregorian calendar; `0` for a month outside 1 to 12. -/
def daysInMonth (year month : Nat) : Nat :=
  if month = 2 then
    if (year % 4 = 0 ∧ year % 100 ≠ 0) ∨ year % 400 = 0 then 29 else 28
  else if month = 4 ∨ month = 6 ∨ month = 9 ∨ month = 11 then 30
  else if 1 ≤ month ∧ month ≤ 12 then 31
  else 0

/-- A date-only form of the ECMAScript date-time string format with a four-digit
year, at the head of the input: `YYYY`, `YYYY-MM` or `YYYY-MM-DD`, an absent month
or day being `01`. The result is year, month, day and the rest of the input; a
month outside 01 to 12 or a day that the month does not have is not read. -/
def readDateOnly (s : List Char) : Option (Nat × Nat × Nat × List Char) :=
  match readDigits 4 0 s with
  | none => none
  | some (y, '-' :: r1) =>
    match readDigits 2 0 r1 with
    | none => none
    | some (m, '-' :: r2) =>
      match readDigits 2 0 r2 with
      | none => none
      | some (d, r3) =>
        if 1 ≤ d ∧ d ≤ daysInMonth y m then some (y, m, d, r3) else none
    | some (m, r2) => if 1 ≤ m ∧ m ≤ 12 then some (y, m, 1, r2) else none
  | some (y, r1) => some (y, 1, 1, r1)

/-- The time form `THH:mm:ss` of the format, with nothing after it, at the head of
the input: hour, minute and second, within 00 to 23, 00 to 59 and 00 to 59. -/
def readTime (s : List Char) : Option (Nat × Nat × Nat) :=
  match s with
  | 'T' :: r0 =>
    match readDigits 2 0 r0 with
    | some (hh, ':' :: r1) =>
      match readDigits 2 0 r1 with
      | some (mm, ':' :: r2) =>
        match readDigits 2 0 r2 with
        | some (ss, []) => if hh ≤ 23 ∧ mm ≤ 59 ∧ ss ≤ 59 then some (hh, mm, ss) else none
        | _ => none
      | _ => none
    | _ => none
  | _ => none

/-- The date-time forms of the ECMAScript date-time string format that consist of a
date-only form with a four-digit year and the time form `THH:mm:ss`, without a UTC
offset. -/
def dateTimeFormat (s : String) : Option CivilTime :=
  match readDateOnly s.data with
  | none => none
  | some (y, m, d, rest) =>
    match readTime rest with
    | none => none
    | some (hh, mm, ss) =>
      some { year := y, month := m, day := d, hour := hh, minute := mm, second := ss }

/-- The expression `new Date(s)` for a string `s`: the time value of the `Date`, or
`none` for an Invalid Date; the constructor never throws. A date-time form without
a UTC offset denotes a local time and always gives a valid `Date`. Every other
string is the engine's to decide (other forms of the standard format, formats of
its own, or Invalid Date). -/
def newDate (h : Host) (s : String) : Option Int :=
  match dateTimeFormat s with
  | some c => some (h.localTimeValue c)
  | none => h.otherDateParse s

/-- Modelled from the spec: the helper `toLocalDate` is called by Code.js and defined
elsewhere. For a valid `Date` it returns the host's `toLocalDate`, as in the two
entry points that pass it `new Date()`. What it does with an Invalid Date is not in
Code.js; section 4.1 has a date string that the date parsing does not accept fail
with `InvalidDateFormat`, nothing being validated beyond what the date parsing
does, and section 7 has that failure propagate uncaught. -/
def toLocalDate (h : Host) (d : Option Int) (tz : String) : Except RunError Int :=
  match d with
  | some t => Except.ok (h.toLocalDate t tz)
  | none => Except.error RunError.InvalidDateFormat

/-- The expression `toLocalDate(new Date(iso + 'T00:00:00'), tz)` of lines 64 and 65.
Nothing in it looks at the shape of `iso` other than the date parsing. -/
def toLocalMidnight (h : Host) (tz iso : String) : Except RunError Int :=
  toLocalDate h (newDate h (iso ++ "T00:00:00")) tz

/-- Variables of `cleanupSrsInRange` that the loop changes, and the provider. -/
structure RangeVars where
  deleted : Nat
  provider : Provider

/-- Body of the `forEach` callback of `cleanupSrsInRange` (lines 71 to 78). -/
def rangeStep (h : Host) (st : RangeVars) (ev : CalendarEvent) : RangeVars :=
  let title := orEmpty ev.getTitle
  let desc := orEmpty ev.getDescription
  let looksLike := looksLikeSRS title desc
  if looksLike then
    let r := tryDelete h st.deleted st.provider ev
    { deleted := r.1, provider := r.2 }
  else st

/-- The entry point `cleanupSrsInRange(startISO, endISO)`: the calendar is looked up,
then the two bounds of the window are computed, then the events are fetched. The
function validates neither string, and no statement of it catches a failure of the
first three steps. -/
def cleanupSrsInRange (h : Host) (startISO endISO : String) : Run :=
  let cal := resolveCalendar h
  let tz := h.TIMEZONE
  match toLocalMidnight h tz startISO with
  | Except.error e => Run.failed e cal
  | Except.ok start =>
    match toLocalMidnight h tz endISO with
    | Except.error e => Run.failed e cal
    | Except.ok end_ =>
      match cal with
      | none => Run.failed RunError.CalendarNotFound none
      | some store =>
        let events := getEvents h store start end_ srsPrefix
        let st := events.foldl (rangeStep h)
          { deleted := 0, provider := { store := store, calls := [] } }
        { error := none, fetched := some events, calls := st.provider.calls,
          calendar := some st.provider.store,
          log := [LogLine.rangeCleanup st.deleted startISO endISO] }

/-! ## Vocabulary of the properties -/

/-- The `deleteEvent` calls that attempting the events `ms` in order makes, the first
being attempt number `k`: each event once, with the outcome the provider gives to
that attempt. -/
def attempts (h : Host) : Nat → List CalendarEvent → List (CalendarEvent × Bool)
  | _, [] => []
  | k, ev :: rest => (ev, h.deleteOutcome k ev) :: attempts h (k + 1) rest

/-- The events whose `deleteEvent` call returned normally. -/
def removed (calls : List (CalendarEvent × Bool)) : List CalendarEvent :=
  (calls.filter (fun c => c.2)).map (fun c => c.1)

/-- The host as the next invocation finds it: the configured calendar holds what the
run left in it, and the deletion outcomes of the next invocation are its own. The
clock, the configuration and the provider's query are the same, so the next
invocation computes the same window. -/
def Host.next (h : Host) (r : Run) (outcome : Nat → CalendarEvent → Bool) : Host :=
  match r.calendar with
  | none => { h with deleteOutcome := outcome }
  | some store =>
    if h.CALENDAR_ID = "primary" then
      { h with defaultCalendar := store, deleteOutcome := outcome }
    else
      { h with
        calendarById := fun i => if i = h.CALENDAR_ID then some store else h.calendarById i,
        deleteOutcome := outcome }

/-- The events that the two entry points working "from tomorrow" fetch from the
resolved calendar: the window runs from `addDays_(toLocalDate(new Date(), tz), 1)` to
the present instant five years on. -/
def fetchFromTomorrow (h : Host) (store : List CalendarEvent) : List CalendarEvent :=
  getEvents h store (h.addDays_ (h.toLocalDate h.now h.TIMEZONE) 1) (h.plusYears h.now 5)
    srsPrefix

/-- What a cleanup loop leaves behind after it went through the fetched events
`evs` of the calendar `store`: every matched event was attempted once, in fetch
order, and the events whose call returned normally are gone. -/
def cleanupRun (h : Host) (store evs : List CalendarEvent) (line : LogLine) : Run :=
  { error := none, fetched := some evs,
    calls := attempts h 0 (evs.filter classify),
    calendar := some (store.filter (fun e =>
      decide (e ∉ removed (attempts h 0 (evs.filter classify))))),
    log := [line] }

/-- Deletion targets only what the classifier confirmed: every `deleteEvent` call of
the run is on a fetched event that the classifier accepted, and a fetched event that
the classifier rejected receives no call and is in the calendar afterwards as often
as before. -/
def DeletesOnlyMatched (h : Host) (r : Run) : Prop :=
  (∀ c ∈ r.calls, classify c.1 = true ∧ ∃ evs, r.fetched = some evs ∧ c.1 ∈ evs) ∧
  ∀ evs, r.fetched = some evs → ∀ ev ∈ evs, classify ev = false →
    (∀ c ∈ r.calls, c.1 ≠ ev) ∧
    ∃ before after, resolveCalendar h = some before ∧ r.calendar = some after ∧
      after.count ev = before.count ev

/-- A deletion failure does not abort the batch: the run over the fetched events
`evs` ends without a failure; its `deleteEvent` calls are the matched events in
fetch order, each attempted once with the outcome the provider gave it, so that a
matched event is attempted as often as it was fetched, whether or not an earlier or
its own call threw; and the calls that returned normally and the calls that threw
together are the matched events. -/
def BatchCompleted (h : Host) (r : Run) (evs : List CalendarEvent) : Prop :=
  r.error = none ∧
  r.calls = attempts h 0 (evs.filter classify) ∧
  (∀ ev, classify ev = true → (r.calls.map (fun c => c.1)).count ev = evs.count ev) ∧
  (removed r.calls).length + (r.calls.filter (fun c => !c.2)).length =
    (evs.filter classify).length

/-- A calendar for worked examples: the three events of the end-to-end scenario of
section 8 and a fourth, matched by its title. -/
def demoCalendar : List CalendarEvent :=
  [ { id := 1, getTitle := some "Kindle SRS Review — Book A", getDescription := some "",
      getStartTime := 1 },
    { id := 2, getTitle := some "Lunch", getDescription := none, getStartTime := 1 },
    { id := 3, getTitle := some "Other", getDescription := some "SRS_DATE=2025-01-01",
      getStartTime := 10 },
    { id := 4, getTitle := some "Kindle SRS Review — Book B", getDescription := none,
      getStartTime := 11 } ]

/-- A host for worked examples: the primary calendar holds `demoCalendar`, the
provider returns every event for a query, and the second `deleteEvent` call of an
invocation throws. Instants are counted in days, a civil time having the number of
its day of the month, and the engine recognises no date string beyond the standard
forms that `newDate` reads. -/
def demoHost : Host :=
  { CALENDAR_ID := "primary", TIMEZONE := "UTC", now := 0,
    toLocalDate := fun t _ => t,
    addDays_ := fun t n => t + n * 86400000,
    plusYears := fun t n => t + n * 31557600000,
    localTimeValue := fun c => (c.day : Int),
    otherDateParse := fun _ => none,
    defaultCalendar := demoCalendar,
    calendarById := fun _ => none,
    matchesQuery := fun _ _ _ _ => true,
    deleteOutcome := fun k _ => decide (k ≠ 1) }

/-- The host of the examples with a provider on which every `deleteEvent` call throws. -/
def failingHost : Host :=
  { demoHost with deleteOutcome := fun _ _ => false }

/-- The host of the examples with a provider on which every `deleteEvent` call
returns normally. -/
def reliableHost : Host :=
  { demoHost with deleteOutcome := fun _ _ => true }

/-- The host of the examples with a provider that returns the events that start
within the window of the query: tomorrow is day 1, five years on is day 5000. -/
def windowHost : Host :=
  { demoHost with
    addDays_ := fun t n => t + n,
    plusYears := fun t n => t + n * 1000,
    matchesQuery := fun ev start end_ _ =>
      decide (start ≤ ev.getStartTime) && decide (ev.getStartTime < end_) }

end KindleSRS

namespace KindleSRS

/-! ## The classifier, characterised -/

theorem indexOfFrom_range (p : List Char) :
    ∀ (s : List Char) (k : Nat), indexOfFrom p s k = -1 ∨ (k : Int) ≤ indexOfFrom p s k := by
  intro s
  induction s with
  | nil =>
    intro k
    unfold indexOfFrom
    split
    · exact Or.inr le_rfl
    · exact Or.inl rfl
  | cons c cs ih =>
    intro k
    unfold indexOfFrom
    split
    · exact Or.inr le_rfl
    · rcases ih (k + 1) with h | h
      · exact Or.inl h
      · refine Or.inr (le_trans ?_ h)
        push_cast
        omega

theorem indexOfFrom_zero_iff (p s : List Char) :
    indexOfFrom p s 0 = 0 ↔ p <+: s := by
  cases s with
  | nil =>
    cases p with
    | nil => simp [indexOfFrom]
    | cons a as => simp [indexOfFrom]
  | cons c cs =>
    unfold indexOfFrom
    by_cases h : p.isPrefixOf (c :: cs) = true
    · rw [if_pos h]
      simpa using List.isPrefixOf_iff_prefix.mp h
    · rw [if_neg h]
      constructor
      · intro h0
        rcases indexOfFrom_range p cs (0 + 1) with h1 | h1
        · rw [h1] at h0
          exact absurd h0 (by decide)
        · rw [h0] at h1
          exact absurd h1 (by decide)
      · intro hp
        exact absurd (List.isPrefixOf_iff_prefix.mpr hp) h

theorem indexOf_zero_iff (s p : String) : indexOf s p = 0 ↔ p.data <+: s.data :=
  indexOfFrom_zero_iff p.data s.data

theorem matchLit_iff (l s r : List Char) : matchLit l s = some r ↔ s = l ++ r := by
  induction l generalizing s with
  | nil => simp [matchLit, eq_comm]
  | cons a as ih =>
    cases s with
    | nil => simp [matchLit]
    | cons c cs =>
      unfold matchLit
      by_cases h : a = c
      · subst h
        simp [ih]
      · rw [if_neg h]
        simp
        intro h2
        exact absurd h2.symm h

theorem matchDigits_iff (n : Nat) (s r : List Char) :
    matchDigits n s = some r ↔
      ∃ ds : List Char, ds.length = n ∧ (∀ c ∈ ds, isDigit c = true) ∧ s = ds ++ r := by
  induction n generalizing s with
  | zero =>
    unfold matchDigits
    constructor
    · intro h
      exact ⟨[], rfl, by simp, by simp [Option.some.inj h]⟩
    · rintro ⟨ds, hl, _, hs⟩
      rw [List.length_eq_zero.mp hl] at hs
      simp [hs]
  | succ n ih =>
    cases s with
    | nil =>
      unfold matchDigits
      constructor
      · intro h
        exact absurd h (by simp)
      · rintro ⟨ds, hl, _, hs⟩
        have : ds = [] := by
          have := congrArg List.length hs
          simp at this
          exact List.length_eq_zero.mp (by omega)
        rw [this] at hl
        exact absurd hl (by simp)
    | cons c cs =>
      unfold matchDigits
      by_cases hc : isDigit c = true
      · rw [if_pos hc, ih]
        constructor
        · rintro ⟨ds, hl, hd, hs⟩
          refine ⟨c :: ds, by simp [hl], ?_, by simp [hs]⟩
          intro x hx
          rcases List.mem_cons.mp hx with rfl | hx
          · exact hc
          · exact hd x hx
        · rintro ⟨ds, hl, hd, hs⟩
          cases ds with
          | nil => exact absurd hl (by simp)
          | cons x xs =>
            simp at hs
            refine ⟨xs, by simpa using hl, fun y hy => hd y (List.mem_cons_of_mem _ hy), hs.2⟩
      · rw [if_neg hc]
        constructor
        · intro h
          exact absurd h (by simp)
        · rintro ⟨ds, hl, hd, hs⟩
          cases ds with
          | nil => exact absurd hl (by simp)
          | cons x xs =>
            simp at hs
            exact absurd (hs.1 ▸ hd x (List.mem_cons_self _ _)) hc

theorem matchHere_iff (s : List Char) :
    matchHere s = true ↔
      ∃ y m d post : List Char,
        (y.length = 4 ∧ ∀ c ∈ y, isDigit c = true) ∧
        (m.length = 2 ∧ ∀ c ∈ m, isDigit c = true) ∧
        (d.length = 2 ∧ ∀ c ∈ d, isDigit c = true) ∧
        s = "SRS_DATE=".data ++ y ++ ['-'] ++ m ++ ['-'] ++ d ++ post := by
  simp only [matchHere, Option.isSome_iff_exists, Option.bind_eq_some, matchLit_iff,
    matchDigits_iff]
  constructor
  · rintro ⟨post, r5, ⟨r4, ⟨r3, ⟨r2, ⟨r1, h1, y, hy, hyd, h2⟩, h3⟩, m, hm, hmd, h4⟩, h5⟩,
      d, hd, hdd, h6⟩
    refine ⟨y, m, d, post, ⟨hy, hyd⟩, ⟨hm, hmd⟩, ⟨hd, hdd⟩, ?_⟩
    subst h6 h5 h4 h3 h2 h1
    simp
  · rintro ⟨y, m, d, post, ⟨hy, hyd⟩, ⟨hm, hmd⟩, ⟨hd, hdd⟩, hs⟩
    refine ⟨post, d ++ post, ⟨['-'] ++ (d ++ post), ⟨m ++ (['-'] ++ (d ++ post)),
      ⟨['-'] ++ (m ++ (['-'] ++ (d ++ post))), ⟨y ++ (['-'] ++ (m ++ (['-'] ++ (d ++ post)))),
        ?_, y, hy, hyd, rfl⟩, rfl⟩, m, hm, hmd, rfl⟩, rfl⟩, d, hd, hdd, rfl⟩
    rw [hs]
    simp

theorem searchFrom_iff (s : List Char) :
    searchFrom s = true ↔ ∃ pre suf : List Char, s = pre ++ suf ∧ matchHere suf = true := by
  induction s with
  | nil =>
    unfold searchFrom
    constructor
    · intro h
      exact ⟨[], [], rfl, h⟩
    · rintro ⟨pre, suf, hs, hm⟩
      have hsuf : suf = [] := (List.append_eq_nil.mp hs.symm).2
      rw [hsuf] at hm
      exact hm
  | cons c cs ih =>
    unfold searchFrom
    rw [Bool.or_eq_true, ih]
    constructor
    · rintro (h | ⟨pre, suf, hs, hm⟩)
      · exact ⟨[], c :: cs, rfl, h⟩
      · exact ⟨c :: pre, suf, by simp [hs], hm⟩
    · rintro ⟨pre, suf, hs, hm⟩
      cases pre with
      | nil =>
        left
        simp at hs
        rw [hs]
        exact hm
      | cons x xs =>
        right
        simp at hs
        exact ⟨xs, suf, hs.2, hm⟩

theorem regexTest_iff (desc : String) : regexTest desc = true ↔ ContainsMarker desc := by
  unfold regexTest ContainsMarker
  rw [searchFrom_iff]
  constructor
  · rintro ⟨pre, suf, hs, hm⟩
    obtain ⟨y, m, d, post, hy, hm2, hd, hsuf⟩ := (matchHere_iff suf).mp hm
    refine ⟨⟨pre⟩, ⟨y⟩, ⟨m⟩, ⟨d⟩, ⟨post⟩, hy, hm2, hd, ?_⟩
    apply String.ext
    simp only [String.data_append]
    rw [hs, hsuf]
    simp
  · rintro ⟨pre, y, m, d, post, hy, hm, hd, hs⟩
    refine ⟨pre.data, "SRS_DATE=".data ++ y.data ++ ['-'] ++ m.data ++ ['-'] ++ d.data ++ post.data,
      ?_, ?_⟩
    · rw [hs]
      simp only [String.data_append]
      simp
    · exact (matchHere_iff _).mpr ⟨y.data, m.data, d.data, post.data, hy, hm, hd, rfl⟩

theorem looksLikeSRS_iff (title desc : String) :
    looksLikeSRS title desc = true ↔ srsPrefix.data <+: title.data ∨ ContainsMarker desc := by
  unfold looksLikeSRS
  rw [Bool.or_eq_true, decide_eq_true_eq, indexOf_zero_iff, regexTest_iff]

/-! ## The loops -/

theorem tryDelete_eq (h : Host) (n : Nat) (p : Provider) (ev : CalendarEvent) :
    tryDelete h n p ev =
      if h.deleteOutcome p.calls.length ev = true then
        (n + 1, { store := p.store.filter (fun e => decide (e ≠ ev)),
                  calls := p.calls ++ [(ev, true)] })
      else (n, { store := p.store, calls := p.calls ++ [(ev, false)] }) := by
  unfold tryDelete deleteEvent
  by_cases hk : h.deleteOutcome p.calls.length ev = true
  · simp [hk]
  · simp [hk]

theorem removed_cons (c : CalendarEvent × Bool) (cs : List (CalendarEvent × Bool)) :
    removed (c :: cs) = if c.2 = true then c.1 :: removed cs else removed cs := by
  unfold removed
  by_cases hc : c.2 = true
  · simp [hc]
  · simp [hc]

theorem removed_subset (cs : List (CalendarEvent × Bool)) :
    ∀ e ∈ removed cs, e ∈ cs.map (fun c => c.1) := by
  intro e he
  unfold removed at he
  obtain ⟨c, hc, rfl⟩ := List.mem_map.mp he
  exact List.mem_map.mpr ⟨c, (List.mem_filter.mp hc).1, rfl⟩

theorem attempts_map_fst (h : Host) (ms : List CalendarEvent) :
    ∀ k, (attempts h k ms).map (fun c => c.1) = ms := by
  induction ms with
  | nil => intro k; rfl
  | cons ev rest ih => intro k; simp [attempts, ih]

theorem attempts_length (h : Host) (ms : List CalendarEvent) (k : Nat) :
    (attempts h k ms).length = ms.length := by
  have := congrArg List.length (attempts_map_fst h ms k)
  simpa using this

theorem cleanup_fold (h : Host) (evs : List CalendarEvent) :
    ∀ st : CleanupVars,
      (evs.foldl (cleanupStep h) st).scanned = st.scanned + evs.length ∧
      (evs.foldl (cleanupStep h) st).deleted =
        st.deleted + (removed (attempts h st.provider.calls.length (evs.filter classify))).length ∧
      (evs.foldl (cleanupStep h) st).provider.calls =
        st.provider.calls ++ attempts h st.provider.calls.length (evs.filter classify) ∧
      (evs.foldl (cleanupStep h) st).provider.store =
        st.provider.store.filter (fun e =>
          decide (e ∉ removed (attempts h st.provider.calls.length (evs.filter classify)))) := by
  induction evs with
  | nil =>
    intro st
    simp [attempts, removed]
  | cons ev rest ih =>
    intro st
    rw [List.foldl_cons]
    by_cases hc : classify ev = true
    · have hl : looksLikeSRS (orEmpty ev.getTitle) (orEmpty ev.getDescription) = true := hc
      by_cases hk : h.deleteOutcome st.provider.calls.length ev = true
      · have hstep : cleanupStep h st ev =
            { scanned := st.scanned + 1, deleted := st.deleted + 1,
              provider := { store := st.provider.store.filter (fun e => decide (e ≠ ev)),
                            calls := st.provider.calls ++ [(ev, true)] } } := by
          simp [cleanupStep, hl, tryDelete_eq, hk]
        obtain ⟨i1, i2, i3, i4⟩ := ih (cleanupStep h st ev)
        rw [hstep] at i1 i2 i3 i4 ⊢
        simp only [List.length_append, List.length_singleton] at i1 i2 i3 i4
        rw [List.filter_cons_of_pos hc]
        simp only [attempts, removed_cons, hk, if_true, List.length_cons]
        refine ⟨by rw [i1]; omega, by rw [i2]; omega, by rw [i3]; simp, ?_⟩
        rw [i4, List.filter_filter]
        apply List.filter_congr
        intro e _
        by_cases h1 : e = ev <;>
          by_cases h2 : e ∈ removed (attempts h (st.provider.calls.length + 1)
            (rest.filter classify)) <;> simp [h1, h2]
      · have hstep : cleanupStep h st ev =
            { scanned := st.scanned + 1, deleted := st.deleted,
              provider := { store := st.provider.store,
                            calls := st.provider.calls ++ [(ev, false)] } } := by
          simp [cleanupStep, hl, tryDelete_eq, hk]
        obtain ⟨i1, i2, i3, i4⟩ := ih (cleanupStep h st ev)
        rw [hstep] at i1 i2 i3 i4 ⊢
        simp only [List.length_append, List.length_singleton] at i1 i2 i3 i4
        rw [List.filter_cons_of_pos hc]
        simp only [attempts, removed_cons, hk, List.length_cons]
        refine ⟨by rw [i1]; omega, by rw [i2]; simp, by rw [i3]; simp, ?_⟩
        rw [i4]
        simp
    · have hl : looksLikeSRS (orEmpty ev.getTitle) (orEmpty ev.getDescription) = false := by
        simpa [classify] using hc
      have hstep : cleanupStep h st ev =
          { scanned := st.scanned + 1, deleted := st.deleted, provider := st.provider } := by
        simp [cleanupStep, hl]
      obtain ⟨i1, i2, i3, i4⟩ := ih (cleanupStep h st ev)
      rw [hstep] at i1 i2 i3 i4 ⊢
      rw [List.filter_cons_of_neg hc]
      refine ⟨by rw [i1]; simp; omega, i2, i3, i4⟩

theorem range_fold_eq (h : Host) (evs : List CalendarEvent) :
    ∀ (n : Nat) (st : RangeVars),
      evs.foldl (rangeStep h) st =
        { deleted := (evs.foldl (cleanupStep h)
            { scanned := n, deleted := st.deleted, provider := st.provider }).deleted,
          provider := (evs.foldl (cleanupStep h)
            { scanned := n, deleted := st.deleted, provider := st.provider }).provider } := by
  induction evs with
  | nil => intro n st; rfl
  | cons ev rest ih =>
    intro n st
    rw [List.foldl_cons, List.foldl_cons, ih (n + 1)]
    by_cases hl : looksLikeSRS (orEmpty ev.getTitle) (orEmpty ev.getDescription) = true
    · simp [rangeStep, cleanupStep, hl]
    · simp [rangeStep, cleanupStep, hl]

theorem preview_fold (evs : List CalendarEvent) :
    ∀ st : PreviewVars,
      (evs.foldl previewStep st).count = st.count + (evs.filter classify).length ∧
      (evs.foldl previewStep st).log =
        st.log ++ (evs.filter classify).map
          (fun ev => LogLine.wouldDelete (orEmpty ev.getTitle) ev.getStartTime) := by
  induction evs with
  | nil => intro st; simp
  | cons ev rest ih =>
    intro st
    rw [List.foldl_cons]
    by_cases hc : classify ev = true
    · have hl : looksLikeSRS (orEmpty ev.getTitle) (orEmpty ev.getDescription) = true := hc
      have hstep : previewStep st ev =
          { count := st.count + 1,
            log := st.log ++ [LogLine.wouldDelete (orEmpty ev.getTitle) ev.getStartTime] } := by
        simp [previewStep, hl]
      obtain ⟨i1, i2⟩ := ih (previewStep st ev)
      rw [hstep] at i1 i2 ⊢
      rw [List.filter_cons_of_pos hc]
      exact ⟨by rw [i1]; simp; omega, by rw [i2]; simp⟩
    · have hl : looksLikeSRS (orEmpty ev.getTitle) (orEmpty ev.getDescription) = false := by
        simpa [classify] using hc
      have hstep : previewStep st ev = st := by
        simp [previewStep, hl]
      rw [hstep, List.filter_cons_of_neg hc]
      exact ih st

/-! ## The entry points, characterised -/

theorem preview_of_some (h : Host) (store : List CalendarEvent)
    (hc : resolveCalendar h = some store) :
    previewSrsToDelete h =
      { error := none, fetched := some (fetchFromTomorrow h store), calls := [],
        calendar := some store,
        log := ((fetchFromTomorrow h store).filter classify).map
            (fun ev => LogLine.wouldDelete (orEmpty ev.getTitle) ev.getStartTime) ++
          [LogLine.preview ((fetchFromTomorrow h store).filter classify).length] } := by
  obtain ⟨i1, i2⟩ := preview_fold (fetchFromTomorrow h store) { count := 0, log := [] }
  unfold fetchFromTomorrow at i1 i2
  simp only [previewSrsToDelete, hc, fetchFromTomorrow, i1, i2]
  simp

theorem preview_of_none (h : Host) (hc : resolveCalendar h = none) :
    previewSrsToDelete h = Run.failed RunError.CalendarNotFound none := by
  simp only [previewSrsToDelete, hc]

theorem cleanup_of_some (h : Host) (store : List CalendarEvent)
    (hc : resolveCalendar h = some store) :
    cleanupSrsFromTomorrow h =
      cleanupRun h store (fetchFromTomorrow h store)
        (LogLine.cleanupDone (fetchFromTomorrow h store).length
          (removed (attempts h 0 ((fetchFromTomorrow h store).filter classify))).length) := by
  obtain ⟨i1, i2, i3, i4⟩ := cleanup_fold h (fetchFromTomorrow h store)
    { scanned := 0, deleted := 0, provider := { store := store, calls := [] } }
  unfold fetchFromTomorrow at i1 i2 i3 i4
  simp only [cleanupSrsFromTomorrow, hc, fetchFromTomorrow, cleanupRun, i1, i2, i3, i4]
  simp

theorem cleanup_of_none (h : Host) (hc : resolveCalendar h = none) :
    cleanupSrsFromTomorrow h = Run.failed RunError.CalendarNotFound none := by
  simp only [cleanupSrsFromTomorrow, hc]

theorem range_of_some (h : Host) (startISO endISO : String) (store : List CalendarEvent)
    (start end_ : Int) (hc : resolveCalendar h = some store)
    (hs : toLocalMidnight h h.TIMEZONE startISO = Except.ok start)
    (he : toLocalMidnight h h.TIMEZONE endISO = Except.ok end_) :
    cleanupSrsInRange h startISO endISO =
      cleanupRun h store (getEvents h store start end_ srsPrefix)
        (LogLine.rangeCleanup
          (removed (attempts h 0 ((getEvents h store start end_ srsPrefix).filter classify))).length
          startISO endISO) := by
  obtain ⟨_, i2, i3, i4⟩ := cleanup_fold h (getEvents h store start end_ srsPrefix)
    { scanned := 0, deleted := 0, provider := { store := store, calls := [] } }
  simp only [cleanupSrsInRange, hc, hs, he, cleanupRun,
    range_fold_eq h (getEvents h store start end_ srsPrefix) 0, i2, i3, i4]
  simp

theorem preview_fetched (h : Host) (evs : List CalendarEvent)
    (hf : (previewSrsToDelete h).fetched = some evs) :
    ∃ store, resolveCalendar h = some store ∧ evs = fetchFromTomorrow h store := by
  cases hc : resolveCalendar h with
  | none =>
    rw [preview_of_none h hc] at hf
    exact absurd hf (by simp [Run.failed])
  | some store =>
    rw [preview_of_some h store hc] at hf
    exact ⟨store, rfl, (Option.some.inj hf).symm⟩

theorem cleanup_fetched (h : Host) (evs : List CalendarEvent)
    (hf : (cleanupSrsFromTomorrow h).fetched = some evs) :
    ∃ store, resolveCalendar h = some store ∧ evs = fetchFromTomorrow h store := by
  cases hc : resolveCalendar h with
  | none =>
    rw [cleanup_of_none h hc] at hf
    exact absurd hf (by simp [Run.failed])
  | some store =>
    rw [cleanup_of_some h store hc] at hf
    exact ⟨store, rfl, (Option.some.inj hf).symm⟩

theorem range_fetched (h : Host) (startISO endISO : String) (evs : List CalendarEvent)
    (hf : (cleanupSrsInRange h startISO endISO).fetched = some evs) :
    ∃ store start end_, resolveCalendar h = some store ∧
      toLocalMidnight h h.TIMEZONE startISO = Except.ok start ∧
      toLocalMidnight h h.TIMEZONE endISO = Except.ok end_ ∧
      evs = getEvents h store start end_ srsPrefix := by
  cases hs : toLocalMidnight h h.TIMEZONE startISO with
  | error e =>
    simp only [cleanupSrsInRange, hs, Run.failed] at hf
    exact absurd hf (by simp)
  | ok start =>
    cases he : toLocalMidnight h h.TIMEZONE endISO with
    | error e =>
      simp only [cleanupSrsInRange, hs, he, Run.failed] at hf
      exact absurd hf (by simp)
    | ok end_ =>
      cases hc : resolveCalendar h with
      | none =>
        simp only [cleanupSrsInRange, hs, he, hc, Run.failed] at hf
        exact absurd hf (by simp)
      | some store =>
        rw [range_of_some h startISO endISO store start end_ hc hs he] at hf
        exact ⟨store, start, end_, rfl, rfl, rfl, (Option.some.inj hf).symm⟩

/-! ## Consequences used by several properties -/

theorem attempts_mem_classified (h : Host) (evs : List CalendarEvent) (k : Nat) :
    ∀ c ∈ attempts h k (evs.filter classify), classify c.1 = true ∧ c.1 ∈ evs := by
  intro c hc
  have hm : c.1 ∈ (attempts h k (evs.filter classify)).map (fun c => c.1) :=
    List.mem_map.mpr ⟨c, hc, rfl⟩
  rw [attempts_map_fst] at hm
  have := List.mem_filter.mp hm
  exact ⟨this.2, this.1⟩

theorem removed_all_succeeded (cs : List (CalendarEvent × Bool)) (hall : ∀ c ∈ cs, c.2 = true) :
    removed cs = cs.map (fun c => c.1) := by
  unfold removed
  rw [List.filter_eq_self.mpr hall]

theorem removed_length_le (h : Host) (evs : List CalendarEvent) (k : Nat) :
    (removed (attempts h k (evs.filter classify))).length ≤ evs.length := by
  unfold removed
  rw [List.length_map]
  calc ((attempts h k (evs.filter classify)).filter (fun c => c.2)).length
      ≤ (attempts h k (evs.filter classify)).length := List.length_filter_le _ _
    _ = (evs.filter classify).length := attempts_length h _ k
    _ ≤ evs.length := List.length_filter_le _ _

theorem failed_deletesOnlyMatched (h : Host) (e : RunError) (cal : Option (List CalendarEvent)) :
    DeletesOnlyMatched h (Run.failed e cal) := by
  constructor
  · intro c hc
    simp [Run.failed] at hc
  · intro evs hf
    simp [Run.failed] at hf

theorem cleanupRun_deletesOnlyMatched (h : Host) (store evs : List CalendarEvent) (line : LogLine)
    (hc : resolveCalendar h = some store) :
    DeletesOnlyMatched h (cleanupRun h store evs line) := by
  constructor
  · intro c hmem
    have := attempts_mem_classified h evs 0 c hmem
    exact ⟨this.1, evs, rfl, this.2⟩
  · intro evs2 hf ev _ hcl
    have hne : ∀ c ∈ attempts h 0 (evs.filter classify), c.1 ≠ ev := by
      intro c hmem heq
      have := (attempts_mem_classified h evs 0 c hmem).1
      rw [heq, hcl] at this
      exact absurd this (by decide)
    refine ⟨hne, store, _, hc, rfl, ?_⟩
    apply List.count_filter
    rw [decide_eq_true_eq]
    intro hrem
    obtain ⟨c, hmem, heq⟩ := List.mem_map.mp (removed_subset _ ev hrem)
    exact hne c hmem heq

theorem toLocalMidnight_error (h : Host) (tz iso : String) (e : RunError)
    (he : toLocalMidnight h tz iso = Except.error e) : e = RunError.InvalidDateFormat := by
  unfold toLocalMidnight toLocalDate at he
  split at he
  · exact absurd he (by simp)
  · exact (Except.error.inj he).symm

theorem toLocalMidnight_invalid (h : Host) (tz iso : String)
    (hw : newDate h (iso ++ "T00:00:00") = none) :
    toLocalMidnight h tz iso = Except.error RunError.InvalidDateFormat := by
  unfold toLocalMidnight toLocalDate
  rw [hw]

theorem next_fields (h : Host) (r : Run) (o : Nat → CalendarEvent → Bool) :
    (h.next r o).TIMEZONE = h.TIMEZONE ∧ (h.next r o).now = h.now ∧
    (h.next r o).toLocalDate = h.toLocalDate ∧ (h.next r o).addDays_ = h.addDays_ ∧
    (h.next r o).plusYears = h.plusYears ∧
    (h.next r o).localTimeValue = h.localTimeValue ∧
    (h.next r o).otherDateParse = h.otherDateParse ∧
    (h.next r o).matchesQuery = h.matchesQuery := by
  unfold Host.next
  cases r.calendar with
  | none => exact ⟨rfl, rfl, rfl, rfl, rfl, rfl, rfl, rfl⟩
  | some store =>
    by_cases hp : h.CALENDAR_ID = "primary"
    · simp [hp]
    · simp [hp]

theorem resolveCalendar_next (h : Host) (r : Run) (o : Nat → CalendarEvent → Bool)
    (store : List CalendarEvent) (hr : r.calendar = some store) :
    resolveCalendar (h.next r o) = some store := by
  unfold Host.next resolveCalendar
  rw [hr]
  by_cases hp : h.CALENDAR_ID = "primary"
  · simp [hp]
  · simp [hp]

theorem getEvents_next (h : Host) (r : Run) (o : Nat → CalendarEvent → Bool)
    (cal : List CalendarEvent) (a b : Int) (q : String) :
    getEvents (h.next r o) cal a b q = getEvents h cal a b q := by
  unfold getEvents
  rw [(next_fields h r o).2.2.2.2.2.2.2]

theorem fetchFromTomorrow_next (h : Host) (r : Run) (o : Nat → CalendarEvent → Bool)
    (cal : List CalendarEvent) :
    fetchFromTomorrow (h.next r o) cal = fetchFromTomorrow h cal := by
  obtain ⟨f1, f2, f3, f4, f5, _, _, _⟩ := next_fields h r o
  unfold fetchFromTomorrow
  rw [getEvents_next, f1, f2, f3, f4, f5]

theorem toLocalMidnight_next (h : Host) (r : Run) (o : Nat → CalendarEvent → Bool)
    (iso : String) :
    toLocalMidnight (h.next r o) (h.next r o).TIMEZONE iso =
      toLocalMidnight h h.TIMEZONE iso := by
  obtain ⟨f1, _, f3, _, _, f6, f7, _⟩ := next_fields h r o
  unfold toLocalMidnight toLocalDate newDate
  rw [f1, f3, f6, f7]

theorem refetch_has_no_match (h : Host) (store : List CalendarEvent) (a b : Int)
    (hall : ∀ c ∈ attempts h 0 ((getEvents h store a b srsPrefix).filter classify), c.2 = true) :
    (getEvents h (store.filter (fun e => decide (e ∉ removed
        (attempts h 0 ((getEvents h store a b srsPrefix).filter classify))))) a b
      srsPrefix).filter classify = [] := by
  rw [List.filter_eq_nil_iff]
  intro e he hcl
  rw [removed_all_succeeded _ hall, attempts_map_fst] at he
  unfold getEvents at he
  obtain ⟨he1, hq⟩ := List.mem_filter.mp he
  obtain ⟨hst, hnot⟩ := List.mem_filter.mp he1
  rw [decide_eq_true_eq] at hnot
  apply hnot
  exact List.mem_filter.mpr ⟨List.mem_filter.mpr ⟨hst, hq⟩, hcl⟩

/-! ## Properties of the specification -/

/-- C1. In all three entry points, whatever events are fetched and whatever the
outcome of each deletion, `deleteEvent` is invoked only on fetched events that the
classifier accepted, and every fetched event that the classifier rejected receives
no call and stays in the calendar. -/
theorem deletion_targets_only_classified_events (h : Host) (startISO endISO : String) :
    DeletesOnlyMatched h (previewSrsToDelete h) ∧
    DeletesOnlyMatched h (cleanupSrsFromTomorrow h) ∧
    DeletesOnlyMatched h (cleanupSrsInRange h startISO endISO) := by
  refine ⟨?_, ?_, ?_⟩
  · cases hc : resolveCalendar h with
    | none =>
      rw [preview_of_none h hc]
      exact failed_deletesOnlyMatched h _ _
    | some store =>
      rw [preview_of_some h store hc]
      constructor
      · intro c hmem
        exact absurd hmem (List.not_mem_nil c)
      · intro evs _ ev _ _
        exact ⟨fun c hmem => absurd hmem (List.not_mem_nil c), store, store, hc, rfl, rfl⟩
  · cases hc : resolveCalendar h with
    | none =>
      rw [cleanup_of_none h hc]
      exact failed_deletesOnlyMatched h _ _
    | some store =>
      rw [cleanup_of_some h store hc]
      exact cleanupRun_deletesOnlyMatched h store _ _ hc
  · cases hs : toLocalMidnight h h.TIMEZONE startISO with
    | error e =>
      simp only [cleanupSrsInRange, hs]
      exact failed_deletesOnlyMatched h _ _
    | ok start =>
      cases he : toLocalMidnight h h.TIMEZONE endISO with
      | error e =>
        simp only [cleanupSrsInRange, hs, he]
        exact failed_deletesOnlyMatched h _ _
      | ok end_ =>
        cases hc : resolveCalendar h with
        | none =>
          simp only [cleanupSrsInRange, hs, he, hc]
          exact failed_deletesOnlyMatched h _ _
        | some store =>
          rw [range_of_some h startISO endISO store start end_ hc hs he]
          exact cleanupRun_deletesOnlyMatched h store _ _ hc

/-- C2. `previewSrsToDelete` never deletes: for every fetched event sequence the run
makes no `deleteEvent` call, the calendar afterwards is the calendar before, and the
count it reports is the number of fetched events that the classifier accepted (one
"would delete" line for each of them comes first). -/
theorem preview_never_deletes (h : Host) (evs : List CalendarEvent)
    (hf : (previewSrsToDelete h).fetched = some evs) :
    (previewSrsToDelete h).calls = [] ∧
    (previewSrsToDelete h).calendar = resolveCalendar h ∧
    (previewSrsToDelete h).error = none ∧
    (previewSrsToDelete h).log =
      (evs.filter classify).map
          (fun ev => LogLine.wouldDelete (orEmpty ev.getTitle) ev.getStartTime) ++
        [LogLine.preview (evs.filter classify).length] := by
  obtain ⟨store, hc, rfl⟩ := preview_fetched h evs hf
  rw [preview_of_some h store hc, hc]
  exact ⟨rfl, rfl, rfl, rfl⟩

theorem preview_never_deletes_witness :
    (previewSrsToDelete demoHost).fetched = some demoCalendar ∧
    (previewSrsToDelete demoHost).calls = [] ∧
    (previewSrsToDelete demoHost).calendar = resolveCalendar demoHost ∧
    (previewSrsToDelete demoHost).error = none ∧
    (previewSrsToDelete demoHost).log =
      (demoCalendar.filter classify).map
          (fun ev => LogLine.wouldDelete (orEmpty ev.getTitle) ev.getStartTime) ++
        [LogLine.preview (demoCalendar.filter classify).length] :=
  ⟨by decide, preview_never_deletes demoHost demoCalendar (by decide)⟩

/-- C3. A title that starts with the prefix `Kindle SRS Review — ` (the prefix and
then any string, the empty one included) is classified as SRS whatever the
description is, a missing description included. -/
theorem title_with_prefix_is_srs (rest : String) (desc : Option String) (n : Nat) (t : Int) :
    looksLikeSRS (orEmpty (some (srsPrefix ++ rest))) (orEmpty desc) = true ∧
    classify { id := n, getTitle := some (srsPrefix ++ rest), getDescription := desc,
               getStartTime := t } = true := by
  have key : looksLikeSRS (orEmpty (some (srsPrefix ++ rest))) (orEmpty desc) = true := by
    rw [looksLikeSRS_iff]
    left
    show srsPrefix.data <+: (srsPrefix ++ rest).data
    rw [String.data_append]
    exact List.prefix_append _ _
  exact ⟨key, key⟩

/-- C4. A description that contains `SRS_DATE=`, four decimal digits, `-`, two
decimal digits, `-` and two decimal digits is classified as SRS whatever the title
is, a missing title included; the date need not exist in the calendar. -/
theorem description_with_marker_is_srs (title : Option String) (desc : String)
    (hm : ContainsMarker desc) :
    looksLikeSRS (orEmpty title) (orEmpty (some desc)) = true := by
  rw [looksLikeSRS_iff]
  exact Or.inr hm

theorem description_with_marker_is_srs_witness :
    ContainsMarker "SRS_DATE=2024-13-40" ∧
    looksLikeSRS (orEmpty none) (orEmpty (some "SRS_DATE=2024-13-40")) = true :=
  ⟨⟨"", "2024", "13", "40", "", by decide, by decide, by decide, by decide⟩,
    description_with_marker_is_srs none "SRS_DATE=2024-13-40"
      ⟨"", "2024", "13", "40", "", by decide, by decide, by decide, by decide⟩⟩

/-- C5. When the title does not start with the prefix and the description contains
no marker, the classifier answers false. -/
theorem no_prefix_no_marker_is_not_srs (title desc : Option String)
    (ht : ¬ srsPrefix.data <+: (orEmpty title).data)
    (hd : ¬ ContainsMarker (orEmpty desc)) :
    looksLikeSRS (orEmpty title) (orEmpty desc) = false := by
  rw [← Bool.not_eq_true, looksLikeSRS_iff]
  rintro (h1 | h2)
  · exact ht h1
  · exact hd h2

theorem no_prefix_no_marker_is_not_srs_witness :
    looksLikeSRS (orEmpty (some "Unrelated meeting")) (orEmpty (some "no marker here")) = false ∧
    looksLikeSRS (orEmpty (some "Re: Kindle SRS Review — Book A")) (orEmpty none) = false :=
  ⟨no_prefix_no_marker_is_not_srs (some "Unrelated meeting") (some "no marker here")
      ((indexOf_zero_iff _ _).not.mp (by decide)) ((regexTest_iff _).not.mp (by decide)),
    no_prefix_no_marker_is_not_srs (some "Re: Kindle SRS Review — Book A") none
      ((indexOf_zero_iff _ _).not.mp (by decide)) ((regexTest_iff _).not.mp (by decide))⟩

/-- C6. For every fetched event sequence and every pattern of deletion outcomes,
`cleanupSrsFromTomorrow` ends with `scanned` the number of fetched events and
`deleted` the number of `deleteEvent` calls that returned normally, the calls being
exactly the fetched events that the classifier accepted; so `deleted ≤ scanned`, and
every deleted event was accepted by the classifier. -/
theorem cleanup_counts (h : Host) (evs : List CalendarEvent)
    (hf : (cleanupSrsFromTomorrow h).fetched = some evs) :
    (cleanupSrsFromTomorrow h).calls = attempts h 0 (evs.filter classify) ∧
    (cleanupSrsFromTomorrow h).log =
      [LogLine.cleanupDone evs.length (removed (cleanupSrsFromTomorrow h).calls).length] ∧
    (removed (cleanupSrsFromTomorrow h).calls).length ≤ evs.length ∧
    ∀ ev ∈ removed (cleanupSrsFromTomorrow h).calls, classify ev = true ∧ ev ∈ evs := by
  obtain ⟨store, hc, rfl⟩ := cleanup_fetched h evs hf
  rw [cleanup_of_some h store hc]
  refine ⟨rfl, rfl, removed_length_le h _ 0, ?_⟩
  intro ev hev
  obtain ⟨c, hmem, rfl⟩ := List.mem_map.mp (removed_subset _ ev hev)
  exact attempts_mem_classified h _ 0 c hmem

theorem cleanup_counts_witness :
    (cleanupSrsFromTomorrow demoHost).fetched = some demoCalendar ∧
    (cleanupSrsFromTomorrow demoHost).log = [LogLine.cleanupDone 4 2] :=
  ⟨by decide,
    (cleanup_counts demoHost demoCalendar (by decide)).2.1.trans (by decide)⟩

theorem cleanupRun_batchCompleted (h : Host) (store evs : List CalendarEvent) (line : LogLine) :
    BatchCompleted h (cleanupRun h store evs line) evs := by
  refine ⟨rfl, rfl, ?_, ?_⟩
  · intro ev hcl
    show ((attempts h 0 (evs.filter classify)).map (fun c => c.1)).count ev = evs.count ev
    rw [attempts_map_fst]
    exact List.count_filter hcl
  · show (removed (attempts h 0 (evs.filter classify))).length +
        ((attempts h 0 (evs.filter classify)).filter (fun c => !c.2)).length =
      (evs.filter classify).length
    unfold removed
    rw [List.length_map, ← List.length_eq_length_filter_add, attempts_length]

/-- C7. A deletion failure does not abort the batch. In `cleanupSrsFromTomorrow` and
in `cleanupSrsInRange`, whichever `deleteEvent` calls throw, the run ends normally,
every matched event before and after a failing one is attempted once in fetch order,
the failing event is attempted once and not again, and `deleted` counts the calls
that returned normally and no others. -/
theorem deletion_failure_does_not_abort (h : Host) (startISO endISO : String)
    (evs1 evs2 : List CalendarEvent)
    (hf1 : (cleanupSrsFromTomorrow h).fetched = some evs1)
    (hf2 : (cleanupSrsInRange h startISO endISO).fetched = some evs2) :
    (BatchCompleted h (cleanupSrsFromTomorrow h) evs1 ∧
      (cleanupSrsFromTomorrow h).log =
        [LogLine.cleanupDone evs1.length (removed (cleanupSrsFromTomorrow h).calls).length]) ∧
    (BatchCompleted h (cleanupSrsInRange h startISO endISO) evs2 ∧
      (cleanupSrsInRange h startISO endISO).log =
        [LogLine.rangeCleanup (removed (cleanupSrsInRange h startISO endISO).calls).length
          startISO endISO]) := by
  constructor
  · obtain ⟨store, hc, rfl⟩ := cleanup_fetched h evs1 hf1
    rw [cleanup_of_some h store hc]
    exact ⟨cleanupRun_batchCompleted h store _ _, rfl⟩
  · obtain ⟨store, start, end_, hc, hs, he, rfl⟩ := range_fetched h startISO endISO evs2 hf2
    rw [range_of_some h startISO endISO store start end_ hc hs he]
    exact ⟨cleanupRun_batchCompleted h store _ _, rfl⟩

theorem deletion_failure_does_not_abort_witness :
    ((cleanupSrsFromTomorrow demoHost).fetched = some demoCalendar ∧
      (cleanupSrsInRange demoHost "2025-01-01" "2025-01-02").fetched = some demoCalendar) ∧
    ((cleanupSrsFromTomorrow demoHost).calls.map (fun c => (c.1.id, c.2)) =
        [(1, true), (3, false), (4, true)] ∧
      (cleanupSrsInRange demoHost "2025-01-01" "2025-01-02").log =
        [LogLine.rangeCleanup 2 "2025-01-01" "2025-01-02"]) ∧
    (BatchCompleted demoHost (cleanupSrsFromTomorrow demoHost) demoCalendar ∧
      (cleanupSrsFromTomorrow demoHost).log =
        [LogLine.cleanupDone demoCalendar.length
          (removed (cleanupSrsFromTomorrow demoHost).calls).length]) ∧
    (BatchCompleted demoHost (cleanupSrsInRange demoHost "2025-01-01" "2025-01-02")
        demoCalendar ∧
      (cleanupSrsInRange demoHost "2025-01-01" "2025-01-02").log =
        [LogLine.rangeCleanup
          (removed (cleanupSrsInRange demoHost "2025-01-01" "2025-01-02").calls).length
          "2025-01-01" "2025-01-02"]) :=
  ⟨⟨by decide, by decide⟩, ⟨by decide, by decide⟩,
    deletion_failure_does_not_abort demoHost "2025-01-01" "2025-01-02" demoCalendar demoCalendar
      (by decide) (by decide)⟩

/-- C8, as stated, fails. On a provider where every deletion of the first run throws
and every deletion of the second returns normally, the second run of either cleanup
against the same window deletes the three matched events. -/
theorem second_cleanup_can_delete :
    (cleanupSrsFromTomorrow
        (failingHost.next (cleanupSrsFromTomorrow failingHost) (fun _ _ => true))).log =
      [LogLine.cleanupDone 4 3] ∧
    (cleanupSrsInRange
        (failingHost.next (cleanupSrsInRange failingHost "2025-01-01" "2025-01-02")
          (fun _ _ => true)) "2025-01-01" "2025-01-02").log =
      [LogLine.rangeCleanup 3 "2025-01-01" "2025-01-02"] := by
  decide

/-- C8, amended. For each of the two cleanups on its own: when every `deleteEvent`
call of its first run returned normally, a second run of the same cleanup against
the same window, whatever its own deletion outcomes would be, invokes `deleteEvent`
on nothing and reports `deleted = 0`. -/
theorem second_cleanup_deletes_nothing (h : Host) (startISO endISO : String)
    (o : Nat → CalendarEvent → Bool) :
    (∀ evs : List CalendarEvent,
      (cleanupSrsFromTomorrow h).fetched = some evs →
      (∀ c ∈ (cleanupSrsFromTomorrow h).calls, c.2 = true) →
      (cleanupSrsFromTomorrow (h.next (cleanupSrsFromTomorrow h) o)).calls = [] ∧
      ∃ scanned, (cleanupSrsFromTomorrow (h.next (cleanupSrsFromTomorrow h) o)).log =
        [LogLine.cleanupDone scanned 0]) ∧
    (∀ evs : List CalendarEvent,
      (cleanupSrsInRange h startISO endISO).fetched = some evs →
      (∀ c ∈ (cleanupSrsInRange h startISO endISO).calls, c.2 = true) →
      (cleanupSrsInRange (h.next (cleanupSrsInRange h startISO endISO) o)
        startISO endISO).calls = [] ∧
      (cleanupSrsInRange (h.next (cleanupSrsInRange h startISO endISO) o)
        startISO endISO).log = [LogLine.rangeCleanup 0 startISO endISO]) := by
  constructor
  · intro evs1 hf1 hok1
    obtain ⟨store, hc, rfl⟩ := cleanup_fetched h evs1 hf1
    have hrun := cleanup_of_some h store hc
    rw [hrun] at hok1
    have hcal := resolveCalendar_next h (cleanupSrsFromTomorrow h) o _
      (by rw [hrun]; rfl)
    rw [cleanup_of_some _ _ hcal, fetchFromTomorrow_next]
    have hnil := refetch_has_no_match h store _ _ hok1
    unfold fetchFromTomorrow at hnil ⊢
    unfold cleanupRun
    rw [hnil]
    exact ⟨rfl, _, rfl⟩
  · intro evs2 hf2 hok2
    obtain ⟨store, start, end_, hc, hs, he, rfl⟩ := range_fetched h startISO endISO evs2 hf2
    have hrun := range_of_some h startISO endISO store start end_ hc hs he
    rw [hrun] at hok2
    have hcal := resolveCalendar_next h (cleanupSrsInRange h startISO endISO) o _
      (by rw [hrun]; rfl)
    have hs2 := (toLocalMidnight_next h (cleanupSrsInRange h startISO endISO) o startISO).trans hs
    have he2 := (toLocalMidnight_next h (cleanupSrsInRange h startISO endISO) o endISO).trans he
    rw [range_of_some _ startISO endISO _ start end_ hcal hs2 he2, getEvents_next]
    have hnil := refetch_has_no_match h store start end_ hok2
    unfold cleanupRun
    rw [hnil]
    exact ⟨rfl, rfl⟩

theorem second_cleanup_deletes_nothing_witness :
    ((cleanupSrsFromTomorrow reliableHost).log = [LogLine.cleanupDone 4 3] ∧
      (cleanupSrsFromTomorrow
          (reliableHost.next (cleanupSrsFromTomorrow reliableHost) (fun _ _ => true))).calls = [] ∧
      ∃ scanned, (cleanupSrsFromTomorrow
          (reliableHost.next (cleanupSrsFromTomorrow reliableHost) (fun _ _ => true))).log =
        [LogLine.cleanupDone scanned 0]) ∧
    ((cleanupSrsFromTomorrow windowHost).calls.map (fun c => (c.1.id, c.2)) =
        [(1, true), (3, false), (4, true)] ∧
      (cleanupSrsInRange windowHost "2025-01-01" "2025-01-02").log =
        [LogLine.rangeCleanup 1 "2025-01-01" "2025-01-02"] ∧
      (cleanupSrsInRange
          (windowHost.next (cleanupSrsInRange windowHost "2025-01-01" "2025-01-02")
            (fun _ _ => true)) "2025-01-01" "2025-01-02").calls = [] ∧
      (cleanupSrsInRange
          (windowHost.next (cleanupSrsInRange windowHost "2025-01-01" "2025-01-02")
            (fun _ _ => true)) "2025-01-01" "2025-01-02").log =
        [LogLine.rangeCleanup 0 "2025-01-01" "2025-01-02"]) :=
  ⟨⟨by decide,
      (second_cleanup_deletes_nothing reliableHost "2025-01-01" "2025-01-02"
        (fun _ _ => true)).1 demoCalendar (by decide) (by decide)⟩,
    ⟨by decide, by decide,
      (second_cleanup_deletes_nothing windowHost "2025-01-01" "2025-01-02"
        (fun _ _ => true)).2 (demoCalendar.take 2) (by decide) (by decide)⟩⟩

/-- C9, as stated, fails. The title `Dentist` does not start with the prefix, the only
marker-like text of the description has a day field of three digits, and the
classifier answers true. -/
theorem three_digit_day_is_srs :
    ¬ srsPrefix.data <+: (orEmpty (some "Dentist")).data ∧
    looksLikeSRS (orEmpty (some "Dentist")) (orEmpty (some "SRS_DATE=2024-01-011")) = true :=
  ⟨(indexOf_zero_iff _ _).not.mp (by decide), by decide⟩

/-- C9, amended. For a title that does not start with the prefix, the classifier
answers true exactly when the description contains `SRS_DATE=`, four decimal digits,
`-`, two decimal digits, `-` and two decimal digits; the pattern is not anchored, so
what stands after the two digits of the day, a further digit included, is free. -/
theorem marker_rule_without_prefix (title desc : Option String)
    (ht : ¬ srsPrefix.data <+: (orEmpty title).data) :
    looksLikeSRS (orEmpty title) (orEmpty desc) = true ↔ ContainsMarker (orEmpty desc) := by
  rw [looksLikeSRS_iff]
  constructor
  · rintro (h1 | h2)
    · exact absurd h1 ht
    · exact h2
  · exact Or.inr

theorem marker_rule_without_prefix_witness :
    ¬ srsPrefix.data <+: (orEmpty (some "Dentist")).data ∧
    (looksLikeSRS (orEmpty (some "Dentist")) (orEmpty (some "SRS_DATE=2024-1-01")) = true ↔
      ContainsMarker (orEmpty (some "SRS_DATE=2024-1-01"))) ∧
    looksLikeSRS (orEmpty (some "Dentist")) (orEmpty (some "SRS_DATE=2024-1-01")) = false ∧
    looksLikeSRS (orEmpty (some "Dentist")) (orEmpty (some "SRS_DATE=12024-01-01")) = false ∧
    looksLikeSRS (orEmpty (some "Dentist")) (orEmpty (some "SRS_DATE=2024-011-01")) = false :=
  ⟨(indexOf_zero_iff _ _).not.mp (by decide),
    marker_rule_without_prefix (some "Dentist") (some "SRS_DATE=2024-1-01")
      ((indexOf_zero_iff _ _).not.mp (by decide)),
    by decide, by decide, by decide⟩

theorem not_isYYYYMMDD_of_length (iso : String) (hl : iso.length ≠ 10) : ¬ IsYYYYMMDD iso := by
  rintro ⟨y, m, d, ⟨hy, _⟩, ⟨hm, _⟩, ⟨hd, _⟩, rfl⟩
  apply hl
  simp only [String.length_append, hy, hm, hd]
  rfl

/-- C10, as stated, fails. The string `2025-01` is no `YYYY-MM-DD` date string, and
the ranged cleanup called with it does not fail: `new Date('2025-01T00:00:00')` is a
valid `Date`, the events are fetched and the matched ones are deleted. -/
theorem range_accepts_other_date_forms :
    ¬ IsYYYYMMDD "2025-01" ∧
    newDate demoHost ("2025-01" ++ "T00:00:00") = some 1 ∧
    (cleanupSrsInRange demoHost "2025-01" "2025-02-01").error = none ∧
    (cleanupSrsInRange demoHost "2025-01" "2025-02-01").fetched = some demoCalendar ∧
    (cleanupSrsInRange demoHost "2025-01" "2025-02-01").calls.map (fun c => (c.1.id, c.2)) =
      [(1, true), (3, false), (4, true)] ∧
    (cleanupSrsInRange demoHost "2025-01" "2025-02-01").log =
      [LogLine.rangeCleanup 2 "2025-01" "2025-02-01"] :=
  ⟨not_isYYYYMMDD_of_length _ (by decide), by decide, by decide, by decide, by decide,
    by decide⟩

/-- C10, amended. `cleanupSrsInRange(startISO, endISO)` fails with `InvalidDateFormat`
whenever `new Date(startISO + 'T00:00:00')` or `new Date(endISO + 'T00:00:00')` is an
Invalid Date: the failure ends the invocation before any event is fetched or
deleted, the calendar is as before and nothing is logged. -/
theorem range_fails_on_invalid_date (h : Host) (startISO endISO : String)
    (hbad : newDate h (startISO ++ "T00:00:00") = none ∨
      newDate h (endISO ++ "T00:00:00") = none) :
    (cleanupSrsInRange h startISO endISO).error = some RunError.InvalidDateFormat ∧
    (cleanupSrsInRange h startISO endISO).fetched = none ∧
    (cleanupSrsInRange h startISO endISO).calls = [] ∧
    (cleanupSrsInRange h startISO endISO).calendar = resolveCalendar h ∧
    (cleanupSrsInRange h startISO endISO).log = [] := by
  have key : cleanupSrsInRange h startISO endISO =
      Run.failed RunError.InvalidDateFormat (resolveCalendar h) := by
    cases hs : toLocalMidnight h h.TIMEZONE startISO with
    | error e =>
      simp only [cleanupSrsInRange, hs]
      rw [toLocalMidnight_error h _ _ e hs]
    | ok start =>
      rcases hbad with hb | hb
      · rw [toLocalMidnight_invalid h _ _ hb] at hs
        exact absurd hs (by simp)
      · simp only [cleanupSrsInRange, hs, toLocalMidnight_invalid h _ _ hb]
  rw [key]
  exact ⟨rfl, rfl, rfl, rfl, rfl⟩

theorem range_fails_on_invalid_date_witness :
    (newDate demoHost ("2025-01-01" ++ "T00:00:00") = some 1 ∧
      newDate demoHost ("2025-13-45" ++ "T00:00:00") = none) ∧
    (cleanupSrsInRange demoHost "2025-01-01" "2025-13-45").error =
      some RunError.InvalidDateFormat ∧
    (cleanupSrsInRange demoHost "2025-01-01" "2025-13-45").fetched = none ∧
    (cleanupSrsInRange demoHost "2025-01-01" "2025-13-45").calls = [] ∧
    (cleanupSrsInRange demoHost "2025-01-01" "2025-13-45").calendar =
      resolveCalendar demoHost ∧
    (cleanupSrsInRange demoHost "2025-01-01" "2025-13-45").log = [] :=
  ⟨⟨by decide, by decide⟩,
    range_fails_on_invalid_date demoHost "2025-01-01" "2025-13-45" (Or.inr (by decide))⟩

end KindleSRS
